import Mathlib

/-!
# Shatterbox — verification of the natural-language specification

Shallow embedding of the Shatterbox voxel-destruction system.  The
repository ships only the TypeScript declaration surface
(`src/index.d.ts`, `src/types.ts`, the VertexMath declaration file) —
the executable bodies are not part of the repository snapshot, so every
operation below is modelled from the specification (`spec.md`), staying
as close as possible to the declared signatures and documented
behaviour.  Geometry uses exact rational arithmetic in place of floats.
-/

namespace Shatterbox

/-- A 3-dimensional vector with exact rational coordinates
(embedding of Roblox `Vector3`). -/
structure Vec3 where
  x : ℚ
  y : ℚ
  z : ℚ
deriving DecidableEq, Repr

namespace Vec3

/-- Component-wise addition. -/
def add (a b : Vec3) : Vec3 := ⟨a.x + b.x, a.y + b.y, a.z + b.z⟩

/-- Component-wise subtraction. -/
def sub (a b : Vec3) : Vec3 := ⟨a.x - b.x, a.y - b.y, a.z - b.z⟩

/-- Negation. -/
def neg (a : Vec3) : Vec3 := ⟨-a.x, -a.y, -a.z⟩

/-- Scalar multiplication. -/
def smul (q : ℚ) (a : Vec3) : Vec3 := ⟨q * a.x, q * a.y, q * a.z⟩

/-- Dot product. -/
def dot (a b : Vec3) : ℚ := a.x * b.x + a.y * b.y + a.z * b.z

/-- Cross product. -/
def cross (a b : Vec3) : Vec3 :=
  ⟨a.y * b.z - a.z * b.y, a.z * b.x - a.x * b.z, a.x * b.y - a.y * b.x⟩

/-- The zero vector. -/
def zero : Vec3 := ⟨0, 0, 0⟩

/-- Squared Euclidean length. -/
def normSq (a : Vec3) : ℚ := dot a a

end Vec3

/-- An oriented transform (embedding of Roblox `CFrame`): a position and
the three local axis directions expressed in world coordinates.  For the
rigid transforms the engine uses, the axes are orthonormal, so the
world→local conversion is the dot product with each axis. -/
structure Transform where
  pos : Vec3
  ax : Vec3
  ay : Vec3
  az : Vec3
deriving DecidableEq, Repr

namespace Transform

/-- The identity transform at a given position (axis-aligned). -/
def axisAlignedAt (p : Vec3) : Transform :=
  ⟨p, ⟨1, 0, 0⟩, ⟨0, 1, 0⟩, ⟨0, 0, 1⟩⟩

/-- The identity transform at the origin. -/
def id : Transform := axisAlignedAt Vec3.zero

/-- World point → local coordinates (Roblox `CFrame:PointToObjectSpace`). -/
def toLocal (t : Transform) (p : Vec3) : Vec3 :=
  let d := p.sub t.pos
  ⟨d.dot t.ax, d.dot t.ay, d.dot t.az⟩

/-- Local coordinates → world point (Roblox `CFrame:PointToWorldSpace`). -/
def toWorld (t : Transform) (l : Vec3) : Vec3 :=
  ((t.pos.add (Vec3.smul l.x t.ax)).add (Vec3.smul l.y t.ay)).add
    (Vec3.smul l.z t.az)

end Transform

/-- The five supported cutting-shape kinds (`Enum.PartType` variants used
by the engine). -/
inductive ShapeKind where
  | Block
  | Ball
  | Cylinder
  | Wedge
  | CornerWedge
deriving DecidableEq, Repr

/-- A hitbox / cutting shape: shape kind, oriented transform, 3D extent
(embedding of the `Hitbox` interface: `CFrame`, `Size`, `Shape`). -/
structure Hitbox where
  shape : ShapeKind
  cf : Transform
  size : Vec3
deriving DecidableEq, Repr

/-- Modelled from the spec: the numeric epsilon used by the geometry
kernel ("a small epsilon (documented constant, e.g. 1e-4 of world
units)") to treat near-tangent configurations as non-intersecting. -/
def GeometryEpsilon : ℚ := 1 / 10000

/-- Modelled from the spec: per-shape-kind point containment
(`VertexMath`'s `PartTypeContainsPoint`; the implementation body is not
in the repository).  Box: all local coordinates within the half-extent;
ball: distance ≤ radius (radius = half the minimum size component);
cylinder (axis along local X): radial + axial bounds; wedge /
corner-wedge: box bounds plus slope half-space tests. -/
def containsPoint (s : Hitbox) (p : Vec3) : Bool :=
  let l := s.cf.toLocal p
  let sz := s.size
  match s.shape with
  | .Block =>
      decide (-sz.x ≤ 2 * l.x ∧ 2 * l.x ≤ sz.x ∧ -sz.y ≤ 2 * l.y ∧
        2 * l.y ≤ sz.y ∧ -sz.z ≤ 2 * l.z ∧ 2 * l.z ≤ sz.z)
  | .Ball =>
      let r := min sz.x (min sz.y sz.z) / 2
      decide (l.normSq ≤ r ^ 2)
  | .Cylinder =>
      let r := min sz.y sz.z / 2
      decide (-sz.x ≤ 2 * l.x ∧ 2 * l.x ≤ sz.x ∧
        l.y ^ 2 + l.z ^ 2 ≤ r ^ 2)
  | .Wedge =>
      decide (-sz.x ≤ 2 * l.x ∧ 2 * l.x ≤ sz.x ∧ -sz.y ≤ 2 * l.y ∧
        2 * l.y ≤ sz.y ∧ -sz.z ≤ 2 * l.z ∧ 2 * l.z ≤ sz.z ∧
        sz.z * (2 * l.y + sz.y) ≤ sz.y * (2 * l.z + sz.z))
  | .CornerWedge =>
      decide (-sz.x ≤ 2 * l.x ∧ 2 * l.x ≤ sz.x ∧ -sz.y ≤ 2 * l.y ∧
        2 * l.y ≤ sz.y ∧ -sz.z ≤ 2 * l.z ∧ 2 * l.z ≤ sz.z ∧
        sz.x * (2 * l.y + sz.y) ≤ sz.y * (2 * l.x + sz.x) ∧
        sz.z * (2 * l.y + sz.y) ≤ sz.y * (2 * l.z + sz.z))

/-- Embedding of `VertexMath.GetVerts.Block`: the 8 corner points of an oriented box,
in world space. -/
def blockVerts (t : Transform) (sz : Vec3) : List Vec3 :=
  [t.toWorld ⟨-sz.x / 2, -sz.y / 2, -sz.z / 2⟩,
   t.toWorld ⟨sz.x / 2, -sz.y / 2, -sz.z / 2⟩,
   t.toWorld ⟨-sz.x / 2, sz.y / 2, -sz.z / 2⟩,
   t.toWorld ⟨sz.x / 2, sz.y / 2, -sz.z / 2⟩,
   t.toWorld ⟨-sz.x / 2, -sz.y / 2, sz.z / 2⟩,
   t.toWorld ⟨sz.x / 2, -sz.y / 2, sz.z / 2⟩,
   t.toWorld ⟨-sz.x / 2, sz.y / 2, sz.z / 2⟩,
   t.toWorld ⟨sz.x / 2, sz.y / 2, sz.z / 2⟩]

/-- Embedding of `VertexMath.GetNormals.Block`: the 6 outward face normals of an
oriented box. -/
def blockNormals (t : Transform) : List Vec3 :=
  [t.ax, t.ax.neg, t.ay, t.ay.neg, t.az, t.az.neg]

/-- Embedding of `VertexMath.PartContainsAllVerts`: true iff the part contains every
vertex of the list. -/
def PartContainsAllVerts (s : Hitbox) (verts : List Vec3) : Bool :=
  verts.all (containsPoint s)

/-- Auxiliary 1-based scan for `PartContainsAVert`. -/
def containsAVertAux (s : Hitbox) (i : Nat) : List Vec3 → Option Nat
  | [] => none
  | v :: rest =>
      if containsPoint s v then some i else containsAVertAux s (i + 1) rest

/-- Embedding of `VertexMath.PartContainsAVert`: the 1-based index of the first
vertex contained in the part, or `none` (the declared `number | false`
return). -/
def PartContainsAVert (s : Hitbox) (verts : List Vec3) : Option Nat :=
  containsAVertAux s 1 verts

/-- Embedding of `VertexMath.PartEncapsulatesBlockPart`: the part contains all 8
corners of the given block. -/
def PartEncapsulatesBlockPart (s : Hitbox) (blockCF : Transform)
    (blockSize : Vec3) : Bool :=
  PartContainsAllVerts s (blockVerts blockCF blockSize)

/-- Smallest projection of a vertex list onto an axis (0 for the
degenerate empty list). -/
def minProj (vs : List Vec3) (L : Vec3) : ℚ :=
  match vs with
  | [] => 0
  | v :: r => r.foldl (fun m w => min m (w.dot L)) (v.dot L)

/-- Largest projection of a vertex list onto an axis (0 for the
degenerate empty list). -/
def maxProj (vs : List Vec3) (L : Vec3) : ℚ :=
  match vs with
  | [] => 0
  | v :: r => r.foldl (fun m w => max m (w.dot L)) (v.dot L)

/-- Modelled from the spec: one candidate-axis separation check of the
SAT implementation (not in the repository snapshot).  The two
vertex-projection intervals are separated on the axis when they overlap
by less than `GeometryEpsilon` (near-tangent counts as separated). -/
def separatesAxis (VA VB : List Vec3) (L : Vec3) : Bool :=
  decide (maxProj VA L < minProj VB L + GeometryEpsilon ∨
    maxProj VB L < minProj VA L + GeometryEpsilon)

/-- Modelled from the spec: the pairwise edge-direction cross products
used as SAT candidate axes, near-zero cross products removed. -/
def crossAxes (NA NB : List Vec3) : List Vec3 :=
  NA.flatMap fun a =>
    (NB.map fun b => a.cross b).filter fun c =>
      decide (GeometryEpsilon ^ 2 < c.normSq)

/-- Modelled from the spec: the SAT candidate axes — all normals of A,
all normals of B, and the deduplicated pairwise cross products. -/
def candidateAxes (NA NB : List Vec3) : List Vec3 :=
  NA ++ NB ++ crossAxes NA NB

/-- Modelled from the spec: `VertexMath.SAT` — the shapes intersect
(`true`) exactly when every candidate axis fails to separate the two
vertex-projection intervals. -/
def SAT (VA NA VB NB : List Vec3) : Bool :=
  (candidateAxes NA NB).all fun L => !separatesAxis VA VB L

theorem Vec3.dot_neg_right (v L : Vec3) : v.dot L.neg = -(v.dot L) := by
  simp only [Vec3.dot, Vec3.neg]; ring

theorem Vec3.normSq_neg (v : Vec3) : v.neg.normSq = v.normSq := by
  simp only [Vec3.normSq, Vec3.dot, Vec3.neg]; ring

theorem Vec3.cross_swap (a b : Vec3) : b.cross a = (a.cross b).neg := by
  simp only [Vec3.cross, Vec3.neg, Vec3.mk.injEq]
  exact ⟨by ring, by ring, by ring⟩

theorem foldl_min_neg (L : Vec3) (r : List Vec3) (init : ℚ) :
    r.foldl (fun m w => min m (w.dot L.neg)) (-init) =
      -(r.foldl (fun m w => max m (w.dot L)) init) := by
  induction r generalizing init with
  | nil => simp
  | cons w r ih =>
      simp only [List.foldl_cons]
      rw [Vec3.dot_neg_right w L, min_neg_neg]
      exact ih _

theorem foldl_max_neg (L : Vec3) (r : List Vec3) (init : ℚ) :
    r.foldl (fun m w => max m (w.dot L.neg)) (-init) =
      -(r.foldl (fun m w => min m (w.dot L)) init) := by
  induction r generalizing init with
  | nil => simp
  | cons w r ih =>
      simp only [List.foldl_cons]
      rw [Vec3.dot_neg_right w L, max_neg_neg]
      exact ih _

theorem minProj_neg (vs : List Vec3) (L : Vec3) :
    minProj vs L.neg = -(maxProj vs L) := by
  cases vs with
  | nil => simp [minProj, maxProj]
  | cons v r =>
      simp only [minProj, maxProj]
      rw [show v.dot L.neg = -(v.dot L) from Vec3.dot_neg_right v L]
      exact foldl_min_neg L r (v.dot L)

theorem maxProj_neg (vs : List Vec3) (L : Vec3) :
    maxProj vs L.neg = -(minProj vs L) := by
  cases vs with
  | nil => simp [minProj, maxProj]
  | cons v r =>
      simp only [minProj, maxProj]
      rw [show v.dot L.neg = -(v.dot L) from Vec3.dot_neg_right v L]
      exact foldl_max_neg L r (v.dot L)

theorem separatesAxis_comm (VA VB : List Vec3) (L : Vec3) :
    separatesAxis VA VB L = separatesAxis VB VA L := by
  simp only [separatesAxis]
  exact decide_eq_decide.mpr or_comm

theorem separatesAxis_neg (VA VB : List Vec3) (L : Vec3) :
    separatesAxis VA VB L.neg = separatesAxis VA VB L := by
  simp only [separatesAxis, minProj_neg, maxProj_neg]
  apply decide_eq_decide.mpr
  constructor
  · rintro (h | h)
    · exact Or.inr (by linarith)
    · exact Or.inl (by linarith)
  · rintro (h | h)
    · exact Or.inr (by linarith)
    · exact Or.inl (by linarith)

theorem SAT_eq_true_iff (VA NA VB NB : List Vec3) :
    SAT VA NA VB NB = true ↔
      ∀ L ∈ candidateAxes NA NB, separatesAxis VA VB L = false := by
  simp [SAT, List.all_eq_true, Bool.not_eq_true']

theorem noAxisSeparates_swap (VA NA VB NB : List Vec3)
    (h : ∀ L ∈ candidateAxes NA NB, separatesAxis VA VB L = false) :
    ∀ L ∈ candidateAxes NB NA, separatesAxis VB VA L = false := by
  intro L hL
  simp only [candidateAxes, List.mem_append] at hL
  rcases hL with (hB | hA) | hX
  · rw [separatesAxis_comm]
    exact h L (by simp [candidateAxes, List.mem_append, hB])
  · rw [separatesAxis_comm]
    exact h L (by simp [candidateAxes, List.mem_append, hA])
  · simp only [crossAxes, List.mem_flatMap, List.mem_filter, List.mem_map]
      at hX
    obtain ⟨b, hb, ⟨a, ha, rfl⟩, hpred⟩ := hX
    rw [Vec3.cross_swap, separatesAxis_neg, separatesAxis_comm]
    apply h
    simp only [candidateAxes, List.mem_append, crossAxes, List.mem_flatMap,
      List.mem_filter, List.mem_map]
    refine Or.inr ⟨a, ha, ⟨b, hb, rfl⟩, ?_⟩
    rwa [Vec3.cross_swap, Vec3.normSq_neg] at hpred

/-- Claim C4: SAT symmetry: swapping the two convex shapes (their vertex
sets with their face-normal sets) leaves the result unchanged, and `SAT`
returns `true` exactly when no candidate axis (normals of A, normals of
B, pairwise edge cross products) separates the two vertex-projection
intervals. -/
theorem sat_symmetric_and_separation_characterization
    (VA NA VB NB : List Vec3) :
    SAT VA NA VB NB = SAT VB NB VA NA ∧
      (SAT VA NA VB NB = true ↔
        ∀ L ∈ candidateAxes NA NB, separatesAxis VA VB L = false) := by
  refine ⟨?_, SAT_eq_true_iff VA NA VB NB⟩
  have h1 := SAT_eq_true_iff VA NA VB NB
  have h2 := SAT_eq_true_iff VB NB VA NA
  cases hA : SAT VA NA VB NB with
  | true =>
      exact (h2.mpr (noAxisSeparates_swap VA NA VB NB
        (h1.mp hA))).symm
  | false =>
      cases hB : SAT VB NB VA NA with
      | true =>
          have := h1.mpr (noAxisSeparates_swap VB NB VA NA (h2.mp hB))
          rw [hA] at this
          exact absurd this (by simp)
      | false => rfl

/-- Voxel classification tag. -/
inductive Classification where
  | Interior
  | Edge
  | Exterior
  | Skip
deriving DecidableEq, Repr

/-- A voxel (embedding of `ImaginaryVoxel`): oriented transform, extent,
owning dirty-group id, destruction id, the grid size it was produced
with, and its edge flag. -/
structure Voxel where
  cf : Transform
  size : Vec3
  dirtyGroupID : String
  destructionID : String
  gridSize : ℚ
  isEdge : Bool
deriving DecidableEq, Repr

/-- Modelled from the spec: angular-tolerance threshold for treating a
voxel's dominant face normal as "up" (floor) or "horizontal" (wall). -/
def FloorNormalTolerance : ℚ := 99 / 100

/-- Modelled from the spec: a voxel counts as a floor voxel when its
dominant (up) face normal is within the angular tolerance of world up. -/
def isFloorVoxel (v : Voxel) : Bool :=
  decide (FloorNormalTolerance ≤ |Vec3.dot v.cf.ay ⟨0, 1, 0⟩|)

/-- Modelled from the spec: a voxel counts as a wall voxel when its up
face normal is within the angular tolerance of horizontal. -/
def isWallVoxel (v : Voxel) : Bool :=
  decide (|Vec3.dot v.cf.ay ⟨0, 1, 0⟩| ≤ 1 - FloorNormalTolerance)

/-- Modelled from the spec: `ClassifyVoxel` (the classification step of
the Voxelizer; its body is not in the repository snapshot).  A voxel is
Interior if the cutting shape's containment test passes for all 8
corners, Edge if it passes for at least one corner but not all, Exterior
otherwise; `skipEncapsulated` turns fully-contained voxels into `Skip`,
and the floor/wall skip flags reclassify floor/wall voxels to `Skip`. -/
def ClassifyVoxel (v : Voxel) (c : Hitbox)
    (skipEncapsulated skipFloors skipWalls : Bool) : Classification :=
  if (skipFloors && isFloorVoxel v) || (skipWalls && isWallVoxel v) then
    .Skip
  else
    let verts := blockVerts v.cf v.size
    if PartContainsAllVerts c verts then
      if skipEncapsulated then .Skip else .Interior
    else
      match PartContainsAVert c verts with
      | some _ => .Edge
      | none => .Exterior

theorem PartContainsAllVerts_iff (s : Hitbox) (verts : List Vec3) :
    PartContainsAllVerts s verts = true ↔
      ∀ v ∈ verts, containsPoint s v = true := by
  simp [PartContainsAllVerts, List.all_eq_true]

theorem containsAVertAux_eq_none_iff (s : Hitbox) (verts : List Vec3) :
    ∀ i, (containsAVertAux s i verts = none ↔
      ∀ v ∈ verts, containsPoint s v = false) := by
  induction verts with
  | nil => intro i; simp [containsAVertAux]
  | cons v r ih =>
      intro i
      cases hcv : containsPoint s v with
      | false => simp [containsAVertAux, hcv, ih (i + 1)]
      | true => simp [containsAVertAux, hcv]

theorem PartContainsAVert_eq_none_iff (s : Hitbox) (verts : List Vec3) :
    PartContainsAVert s verts = none ↔
      ∀ v ∈ verts, containsPoint s v = false := by
  exact containsAVertAux_eq_none_iff s verts 1

/-- Claim C3: Classification soundness: with no skip flags set, a voxel is
classified Interior exactly when the cutting shape's containment test
passes for all 8 corners, Exterior exactly when it passes for no corner,
and Edge exactly when it passes for at least one corner but not all. -/
theorem classify_voxel_soundness (v : Voxel) (c : Hitbox) :
    (ClassifyVoxel v c false false false = .Interior ↔
      ∀ p ∈ blockVerts v.cf v.size, containsPoint c p = true) ∧
    (ClassifyVoxel v c false false false = .Exterior ↔
      ∀ p ∈ blockVerts v.cf v.size, containsPoint c p = false) ∧
    (ClassifyVoxel v c false false false = .Edge ↔
      ((∃ p ∈ blockVerts v.cf v.size, containsPoint c p = true) ∧
        ¬∀ p ∈ blockVerts v.cf v.size, containsPoint c p = true)) := by
  have hverts : (v.cf.toWorld
      ⟨-v.size.x / 2, -v.size.y / 2, -v.size.z / 2⟩) ∈
      blockVerts v.cf v.size := by simp [blockVerts]
  have base : ClassifyVoxel v c false false false =
      (if PartContainsAllVerts c (blockVerts v.cf v.size) then
        Classification.Interior
      else
        match PartContainsAVert c (blockVerts v.cf v.size) with
        | some _ => Classification.Edge
        | none => Classification.Exterior) := by
    simp [ClassifyVoxel]
  rw [base]
  by_cases hall : PartContainsAllVerts c (blockVerts v.cf v.size) = true
  case pos =>
    rw [if_pos hall]
    have hmem := (PartContainsAllVerts_iff c (blockVerts v.cf v.size)).mp hall
    refine ⟨⟨fun _ => hmem, fun _ => rfl⟩, ?_, ?_⟩
    · constructor
      · intro h; simp at h
      · intro hf
        have h1 := hmem _ hverts
        have h2 := hf _ hverts
        rw [h1] at h2
        exact absurd h2 (by simp)
    · constructor
      · intro h; simp at h
      · rintro ⟨-, hno⟩; exact absurd hmem hno
  case neg =>
    rw [if_neg hall]
    have hnall : ¬∀ p ∈ blockVerts v.cf v.size, containsPoint c p = true :=
      fun hf => hall ((PartContainsAllVerts_iff c _).mpr hf)
    cases hv : PartContainsAVert c (blockVerts v.cf v.size) with
    | none =>
        have hnone := (PartContainsAVert_eq_none_iff c _).mp hv
        refine ⟨?_, ⟨fun _ => hnone, fun _ => rfl⟩, ?_⟩
        · constructor
          · intro h; simp at h
          · intro hf
            have := hf _ hverts
            rw [hnone _ hverts] at this
            exact absurd this (by simp)
        · constructor
          · intro h; simp at h
          · rintro ⟨⟨p, hp, hcp⟩, -⟩
            rw [hnone p hp] at hcp
            exact absurd hcp (by simp)
    | some k =>
        have hex : ∃ p ∈ blockVerts v.cf v.size, containsPoint c p = true := by
          by_contra hno
          push_neg at hno
          have hfalse : ∀ p ∈ blockVerts v.cf v.size,
              containsPoint c p = false := by
            intro p hp
            cases hcp : containsPoint c p with
            | false => rfl
            | true => exact absurd hcp (hno p hp)
          rw [(PartContainsAVert_eq_none_iff c _).mpr hfalse] at hv
          exact Option.noConfusion hv
        refine ⟨?_, ?_, ⟨fun _ => ⟨hex, hnall⟩, fun _ => rfl⟩⟩
        · constructor
          · intro h; simp at h
          · intro hf; exact absurd hf hnall
        · constructor
          · intro h; simp at h
          · intro hf
            obtain ⟨p, hp, hcp⟩ := hex
            rw [hf p hp] at hcp
            exact absurd hcp (by simp)

/-- A solid scene object eligible for destruction: stable identity,
oriented transform, 3D extent and shape kind. -/
structure SolidObject where
  id : String
  cf : Transform
  size : Vec3
  shape : ShapeKind
deriving DecidableEq, Repr

/-- Modelled from the spec: the minimum the grid size is clamped to, "to
bound voxel count". -/
def MinGridSize : ℚ := 1 / 2

/-- The grid size actually used by the Voxelizer (clamped from below). -/
def clampedGrid (gridSize : ℚ) : ℚ := max gridSize MinGridSize

/-- Number of grid cells along one local axis: `⌈extent / gridSize⌉`. -/
def axisCellCount (ext g : ℚ) : Nat := (⌈ext / g⌉).toNat

/-- Modelled from the spec: one grid cell of the voxel decomposition.
Cells are cubes of side `g` aligned to the object's local frame;
remainder cells at the far edge are sized to fit rather than overflow. -/
def voxelCell (obj : SolidObject) (g : ℚ) (i j k : Nat) : Voxel :=
  let csx := min g (obj.size.x - i * g)
  let csy := min g (obj.size.y - j * g)
  let csz := min g (obj.size.z - k * g)
  { cf :=
      { pos := obj.cf.toWorld
          ⟨-obj.size.x / 2 + i * g + csx / 2,
           -obj.size.y / 2 + j * g + csy / 2,
           -obj.size.z / 2 + k * g + csz / 2⟩
        ax := obj.cf.ax
        ay := obj.cf.ay
        az := obj.cf.az }
    size := ⟨csx, csy, csz⟩
    dirtyGroupID := obj.id
    destructionID := ""
    gridSize := g
    isEdge := false }

/-- Modelled from the spec: `Voxelize(object, gridSize)` — partitions
the object's local extent into a regular grid of cubes of side
`gridSize` (clamped from below by `MinGridSize`); remainder cells at the
far edge are sized to fit.  The implementation body is not in the
repository snapshot. -/
def Voxelize (obj : SolidObject) (gridSize : ℚ) : List Voxel :=
  (List.range (axisCellCount obj.size.x (clampedGrid gridSize))).flatMap
    fun i =>
      (List.range (axisCellCount obj.size.y (clampedGrid gridSize))).flatMap
        fun j =>
          (List.range
              (axisCellCount obj.size.z (clampedGrid gridSize))).map
            fun k => voxelCell obj (clampedGrid gridSize) i j k

/-- Embedding of `VoxelDistanceVector(voxel, point)`: the point in the voxel's local
frame, measured in voxels (fractional quantities). -/
def VoxelDistanceVector (v : Voxel) (p : Vec3) : Vec3 :=
  let l := v.cf.toLocal p
  ⟨l.x / v.gridSize, l.y / v.gridSize, l.z / v.gridSize⟩

/-- Embedding of `VoxelCountVector(voxel, boxSize)`: how many voxels the box spans on
each axis, component-wise `max(1, extent / gridSize)` (a box is always
at least 1 voxel large). -/
def VoxelCountVector (v : Voxel) (boxSize : Vec3) : Vec3 :=
  ⟨max 1 (boxSize.x / v.gridSize), max 1 (boxSize.y / v.gridSize),
   max 1 (boxSize.z / v.gridSize)⟩

/-- Claim C6: `VoxelCountVector` lower bound: for a reference voxel with
positive grid size and an extent with non-negative components, the
result is component-wise `max(1, extent/gridSize)` and every component
is at least 1. -/
theorem voxel_count_vector_lower_bound (v : Voxel) (ext : Vec3)
    (hg : 0 < v.gridSize) (hx : 0 ≤ ext.x) (hy : 0 ≤ ext.y)
    (hz : 0 ≤ ext.z) :
    VoxelCountVector v ext =
      ⟨max 1 (ext.x / v.gridSize), max 1 (ext.y / v.gridSize),
       max 1 (ext.z / v.gridSize)⟩ ∧
    1 ≤ (VoxelCountVector v ext).x ∧ 1 ≤ (VoxelCountVector v ext).y ∧
    1 ≤ (VoxelCountVector v ext).z :=
  ⟨rfl, le_max_left _ _, le_max_left _ _, le_max_left _ _⟩

/-- A sample reference voxel used by concrete witnesses. -/
def sampleVoxel : Voxel :=
  { cf := Transform.id
    size := ⟨2, 2, 2⟩
    dirtyGroupID := "group1"
    destructionID := "destruction1"
    gridSize := 2
    isEdge := false }

/-- Witness for **C6** at a concrete voxel and extent. -/
theorem voxel_count_vector_lower_bound_witness :
    (0 < sampleVoxel.gridSize ∧ 0 ≤ (10 : ℚ) ∧ 0 ≤ (5 : ℚ) ∧
      0 ≤ (8 : ℚ)) ∧
    (1 ≤ (VoxelCountVector sampleVoxel ⟨10, 5, 8⟩).x ∧
     1 ≤ (VoxelCountVector sampleVoxel ⟨10, 5, 8⟩).y ∧
     1 ≤ (VoxelCountVector sampleVoxel ⟨10, 5, 8⟩).z) :=
  ⟨⟨by norm_num [sampleVoxel], by norm_num, by norm_num, by norm_num⟩,
    (voxel_count_vector_lower_bound sampleVoxel ⟨10, 5, 8⟩
      (by norm_num [sampleVoxel]) (by norm_num) (by norm_num)
      (by norm_num)).2⟩

theorem length_flatMap_const {α β : Type} (l : List α) (f : α → List β)
    (c : Nat) (h : ∀ a ∈ l, (f a).length = c) :
    (l.flatMap f).length = l.length * c := by
  induction l with
  | nil => simp
  | cons a l ih =>
      simp only [List.flatMap_cons, List.length_append, List.length_cons]
      rw [h a (by simp), ih (fun b hb => h b (by simp [hb]))]
      ring

/-- The voxel count of `Voxelize` is the product of the per-axis cell
counts. -/
theorem Voxelize_length (obj : SolidObject) (gridSize : ℚ) :
    (Voxelize obj gridSize).length =
      axisCellCount obj.size.x (clampedGrid gridSize) *
        (axisCellCount obj.size.y (clampedGrid gridSize) *
          axisCellCount obj.size.z (clampedGrid gridSize)) := by
  simp only [Voxelize]
  rw [length_flatMap_const _ _
    (axisCellCount obj.size.y (clampedGrid gridSize) *
      axisCellCount obj.size.z (clampedGrid gridSize)) ?_]
  · simp
  · intro i _
    rw [length_flatMap_const _ _
      (axisCellCount obj.size.z (clampedGrid gridSize))
      (fun j _ => by simp)]
    simp

/-- The 10×10×10 box at the origin from the spec's voxelization
scenario. -/
def box10 : SolidObject :=
  { id := "box10", cf := Transform.id, size := ⟨10, 10, 10⟩,
    shape := .Block }

/-- A cutting shape that fully contains `box10` (a 100×100×100 block
centered on it). -/
def fullCutter : Hitbox :=
  { shape := .Block, cf := Transform.id, size := ⟨100, 100, 100⟩ }

theorem clampedGrid_two : clampedGrid 2 = 2 := by
  norm_num [clampedGrid, MinGridSize]

theorem axisCellCount_ten_two : axisCellCount 10 2 = 5 := by
  rw [axisCellCount, show (10 : ℚ) / 2 = ((5 : ℕ) : ℚ) by norm_num,
    Int.ceil_natCast]
  rfl

theorem voxelize_box10_eq :
    Voxelize box10 2 =
      (List.range 5).flatMap fun i =>
        (List.range 5).flatMap fun j =>
          (List.range 5).map fun k => voxelCell box10 2 i j k := by
  simp only [Voxelize, clampedGrid_two,
    show box10.size = ⟨10, 10, 10⟩ from rfl, axisCellCount_ten_two]

/-- Claim C5: Voxelization scenario: voxelizing the 10×10×10 box with grid
size 2 yields exactly 125 voxels; the cutting shape fully contains the
box, and with no skip flags every one of those voxels is classified
Interior. -/
theorem voxelize_box10_scenario :
    (Voxelize box10 2).length = 125 ∧
    PartEncapsulatesBlockPart fullCutter box10.cf box10.size = true ∧
    ∀ v ∈ Voxelize box10 2,
      ClassifyVoxel v fullCutter false false false = .Interior := by
  refine ⟨?_, ?_, ?_⟩
  · rw [Voxelize_length]
    simp only [show box10.size = ⟨10, 10, 10⟩ from rfl, clampedGrid_two,
      axisCellCount_ten_two]
  · simp only [PartEncapsulatesBlockPart, PartContainsAllVerts, blockVerts,
      containsPoint, fullCutter, box10, Transform.id, Transform.axisAlignedAt,
      Transform.toLocal, Transform.toWorld, Vec3.dot, Vec3.sub, Vec3.add,
      Vec3.smul, Vec3.zero, List.all_cons, List.all_nil, Bool.and_eq_true,
      decide_eq_true_eq]
    norm_num
  · intro v hv
    rw [voxelize_box10_eq] at hv
    simp only [List.mem_flatMap, List.mem_map, List.mem_range] at hv
    obtain ⟨i, hi, j, hj, k, hk, rfl⟩ := hv
    have hiq : (i : ℚ) ≤ 4 := by exact_mod_cast Nat.lt_succ_iff.mp hi
    have hjq : (j : ℚ) ≤ 4 := by exact_mod_cast Nat.lt_succ_iff.mp hj
    have hkq : (k : ℚ) ≤ 4 := by exact_mod_cast Nat.lt_succ_iff.mp hk
    have hiq0 : (0 : ℚ) ≤ (i : ℚ) := Nat.cast_nonneg i
    have hjq0 : (0 : ℚ) ≤ (j : ℚ) := Nat.cast_nonneg j
    have hkq0 : (0 : ℚ) ≤ (k : ℚ) := Nat.cast_nonneg k
    have hmi : min (2 : ℚ) ((10 : ℚ) - i * 2) = 2 :=
      min_eq_left (by linarith)
    have hmj : min (2 : ℚ) ((10 : ℚ) - j * 2) = 2 :=
      min_eq_left (by linarith)
    have hmk : min (2 : ℚ) ((10 : ℚ) - k * 2) = 2 :=
      min_eq_left (by linarith)
    have hall : PartContainsAllVerts fullCutter
        (blockVerts (voxelCell box10 2 i j k).cf
          (voxelCell box10 2 i j k).size) = true := by
      simp only [voxelCell, box10, PartContainsAllVerts, blockVerts,
        containsPoint, fullCutter, Transform.id, Transform.axisAlignedAt,
        Transform.toLocal, Transform.toWorld, Vec3.dot, Vec3.sub, Vec3.add,
        Vec3.smul, Vec3.zero, hmi, hmj, hmk, List.all_cons, List.all_nil,
        Bool.and_eq_true, decide_eq_true_eq]
      norm_num
      repeat' apply And.intro
      all_goals linarith
    simp [ClassifyVoxel, hall]

/-- World information for area-based operations (`WorldInfo`: `CFrame`
and `Size`; the area is an axis-oriented box). -/
structure WorldInfo where
  cf : Transform
  size : Vec3
deriving DecidableEq, Repr

/-- The provenance record for one voxelized original (`DirtyGroup`):
the untouched original object (kept alive but detached, never
destroyed) and the set of live voxels currently representing it. -/
structure DirtyGroup where
  original : SolidObject
  voxels : List Voxel
deriving DecidableEq, Repr

/-- The Dirty-Group Registry state: the active scene (attached solid
objects) and the dirty groups keyed by group id. -/
structure Registry where
  scene : List SolidObject
  groups : List (String × DirtyGroup)
deriving DecidableEq, Repr

/-- Modelled from the spec: `Capture(object)` — on first voxelization,
detach the original from the active scene (retained in its group, not
destroyed) and create its DirtyGroup holding the voxelization's voxels;
idempotent: a second capture of the same object returns the existing
state. -/
def Capture (obj : SolidObject) (vox : List Voxel) (r : Registry) :
    Registry :=
  if (r.groups.lookup obj.id).isSome then r
  else
    { scene := r.scene.erase obj
      groups := (obj.id, ⟨obj, vox⟩) :: r.groups }

/-- Embedding of `GetOriginalPart(dirtyGroupID)`: the retained original object of a
group, or `none` if not found. -/
def GetOriginalPart (gid : String) (r : Registry) : Option SolidObject :=
  (r.groups.lookup gid).map (·.original)

/-- Modelled from the spec: whether a live voxel intersects the reset
area (per the shape-kind pairing table, a box/box pair is tested through
vertex containment). -/
def voxelIntersectsRegion (w : WorldInfo) (v : Voxel) : Bool :=
  (PartContainsAVert ⟨.Block, w.cf, w.size⟩
    (blockVerts v.cf v.size)).isSome

/-- One `ResetArea` step on a single group entry: remove the voxels
intersecting the region; if the group was touched and no live voxel
remains, the group is dissolved and its original is reattached. -/
def resetAreaStep (w : WorldInfo) (p : String × DirtyGroup) :
    Option (String × DirtyGroup) × List SolidObject :=
  if p.2.voxels.any (voxelIntersectsRegion w) then
    let remaining := p.2.voxels.filter fun v => !voxelIntersectsRegion w v
    if remaining.isEmpty then (none, [p.2.original])
    else (some (p.1, ⟨p.2.original, remaining⟩), [])
  else (some p, [])

/-- Modelled from the spec: `ResetArea(region)` — for every DirtyGroup
whose live voxels intersect the region, remove those voxels and, if the
group becomes fully restorable, reattach the original object to the
scene; groups with remaining live voxels elsewhere stay split. -/
def ResetArea (w : WorldInfo) (r : Registry) : Registry :=
  { scene := r.scene ++ r.groups.flatMap fun p => (resetAreaStep w p).2
    groups := r.groups.filterMap fun p => (resetAreaStep w p).1 }

theorem PartContainsAVert_isSome_of_all (s : Hitbox) (t : Transform)
    (sz : Vec3) (h : PartContainsAllVerts s (blockVerts t sz) = true) :
    (PartContainsAVert s (blockVerts t sz)).isSome = true := by
  have h0 := (PartContainsAllVerts_iff s (blockVerts t sz)).mp h _
    (show (t.toWorld ⟨-sz.x / 2, -sz.y / 2, -sz.z / 2⟩) ∈
      blockVerts t sz by simp [blockVerts])
  simp only [PartContainsAVert, blockVerts, containsAVertAux, h0, if_true]
  rfl

/-- Claim C2: Round-trip restoration: capturing an object and immediately
resetting an area that fully bounds it (the region's containment test
passes for every corner of every captured voxel) reattaches the very
original object — hence with exactly its original transform and extent —
to the scene; in between, the original is detached from the scene but
retained in its group, never destroyed. -/
theorem capture_resetArea_roundtrip (r : Registry) (obj : SolidObject)
    (vox : List Voxel) (w : WorldInfo)
    (hfresh : r.groups.lookup obj.id = none) (hne : vox ≠ [])
    (hbound : ∀ v ∈ vox,
      PartContainsAllVerts ⟨.Block, w.cf, w.size⟩
        (blockVerts v.cf v.size) = true) :
    (Capture obj vox r).scene = r.scene.erase obj ∧
    GetOriginalPart obj.id (Capture obj vox r) = some obj ∧
    obj ∈ (ResetArea w (Capture obj vox r)).scene := by
  have hcap : Capture obj vox r =
      { scene := r.scene.erase obj
        groups := (obj.id, ⟨obj, vox⟩) :: r.groups } := by
    simp [Capture, hfresh]
  have hint : ∀ v ∈ vox, voxelIntersectsRegion w v = true := by
    intro v hv
    exact PartContainsAVert_isSome_of_all _ _ _ (hbound v hv)
  refine ⟨by rw [hcap], ?_, ?_⟩
  · rw [hcap]
    simp [GetOriginalPart, List.lookup]
  · rw [hcap]
    simp only [ResetArea, List.mem_append]
    right
    simp only [List.flatMap_cons, List.mem_append]
    left
    have hstep : resetAreaStep w (obj.id, ⟨obj, vox⟩) = (none, [obj]) := by
      have hany : vox.any (voxelIntersectsRegion w) = true := by
        obtain ⟨v, hv⟩ := List.exists_mem_of_ne_nil vox hne
        exact List.any_eq_true.mpr ⟨v, hv, hint v hv⟩
      have hfilter : (vox.filter fun v => !voxelIntersectsRegion w v) = [] := by
        apply List.filter_eq_nil_iff.mpr
        intro v hv
        simp [hint v hv]
      simp [resetAreaStep, hany, hfilter]
    rw [hstep]
    simp

/-- The empty registry (system start). -/
def emptyRegistry : Registry := ⟨[], []⟩

/-- A reset region fully bounding the witness scenario. -/
def sampleRegion : WorldInfo := ⟨Transform.id, ⟨100, 100, 100⟩⟩

/-- A concrete captured voxel for the round-trip witness. -/
def sampleCaptureVoxel : Voxel :=
  { cf := Transform.id
    size := ⟨2, 2, 2⟩
    dirtyGroupID := "box10"
    destructionID := ""
    gridSize := 2
    isEdge := false }

theorem sampleCaptureVoxel_bounded :
    ∀ v ∈ [sampleCaptureVoxel],
      PartContainsAllVerts ⟨.Block, sampleRegion.cf, sampleRegion.size⟩
        (blockVerts v.cf v.size) = true := by
  intro v hv
  rw [List.mem_singleton] at hv
  subst hv
  simp only [PartContainsAllVerts, blockVerts, containsPoint, sampleRegion,
    sampleCaptureVoxel, Transform.id, Transform.axisAlignedAt,
    Transform.toLocal, Transform.toWorld, Vec3.dot, Vec3.sub, Vec3.add,
    Vec3.smul, Vec3.zero, List.all_cons, List.all_nil, Bool.and_eq_true,
    decide_eq_true_eq]
  norm_num

/-- Witness for **C2** at a concrete object, voxel list and region. -/
theorem capture_resetArea_roundtrip_witness :
    (emptyRegistry.groups.lookup box10.id = none ∧
      ([sampleCaptureVoxel] : List Voxel) ≠ []) ∧
    ((Capture box10 [sampleCaptureVoxel] emptyRegistry).scene =
        emptyRegistry.scene.erase box10 ∧
      GetOriginalPart box10.id
        (Capture box10 [sampleCaptureVoxel] emptyRegistry) = some box10 ∧
      box10 ∈ (ResetArea sampleRegion
        (Capture box10 [sampleCaptureVoxel] emptyRegistry)).scene) :=
  ⟨⟨by simp [emptyRegistry], by simp⟩,
    capture_resetArea_roundtrip emptyRegistry box10 [sampleCaptureVoxel]
      sampleRegion (by simp [emptyRegistry]) (by simp)
      sampleCaptureVoxel_bounded⟩

/-- Policy for non-divisible parts hit by a destruction. -/
inductive NonDivisiblePolicy where
  | NONE
  | FALL
  | REMOVE
deriving DecidableEq, Repr

/-- The settings configuration surface (embedding of the `Settings`
interface in `src/types.ts`).  The `SkipInstanceCheck` callback is a
predicate on solid objects. -/
structure Settings where
  USE_CLIENT_SERVER : Bool
  DefaultGridSize : ℚ
  DefaultSmoothCleanupDelay : ℚ
  UseSmoothCleanup : Bool
  UseGreedyMeshing : Bool
  GMWorkerCount : Nat
  GMTraversalsPerFrame : Nat
  GMPartCreationsPerFrame : Nat
  MaxDivisionsPerFrame : Nat
  MaxOpsPerFrame : Nat
  UsePriorityQueue : Bool
  PrioritizeRecentN : Nat
  PuppetMaxCount : Nat
  PuppetReplicationFrequency : ℚ
  PuppetSleepVelocity : ℚ
  PuppetAnchorTimeout : ℚ
  ClientTweenPuppets : Bool
  ClientTweenDistanceLimit : ℚ
  NonDivisibleInteraction : NonDivisiblePolicy
  SkipInstanceCheck : SolidObject → Bool

/-- Lifecycle states of a `DestructionJob`:
`Queued -> Processing -> {Completed, Cancelled}`. -/
inductive JobStatus where
  | Queued
  | Processing
  | Completed
  | Cancelled
deriving DecidableEq, Repr

/-- A destruction job as seen by the Scheduler: status, the grid size
snapshot captured at submission, the affected objects still awaiting
voxelization, and the voxel classification + registry-insert operations
still awaiting execution. -/
structure SchedJob where
  id : String
  status : JobStatus
  gridSize : ℚ
  pendingObjects : List SolidObject
  pendingOps : Nat
deriving Repr

/-- Modelled from the spec: pull object-voxelizations from the job queue
up to the per-frame division budget; each voxelized object enqueues one
classification + registry-insert operation per produced voxel.  Returns
the updated queue and the number of divisions performed. -/
def pullDivisions : Nat → List SchedJob → List SchedJob × Nat
  | _, [] => ([], 0)
  | b, j :: rest =>
      let t := min b j.pendingObjects.length
      let newOps := ((j.pendingObjects.take t).map
        fun o => (Voxelize o j.gridSize).length).sum
      let res := pullDivisions (b - t) rest
      ({ j with
          pendingObjects := j.pendingObjects.drop t
          pendingOps := j.pendingOps + newOps } :: res.1,
        t + res.2)

/-- Modelled from the spec: run voxel classification + registry-insert
operations from the job queue up to the per-frame operation budget.
Returns the updated queue and the number of operations run. -/
def pullOps : Nat → List SchedJob → List SchedJob × Nat
  | _, [] => ([], 0)
  | b, j :: rest =>
      let t := min b j.pendingOps
      let res := pullOps (b - t) rest
      ({ j with pendingOps := j.pendingOps - t } :: res.1, t + res.2)

/-- A job whose work is exhausted is `Completed`; a job that has been
started is `Processing`. -/
def markJobStatus (j : SchedJob) : SchedJob :=
  if j.status = .Queued ∨ j.status = .Processing then
    if j.pendingObjects.isEmpty ∧ j.pendingOps = 0 then
      { j with status := .Completed }
    else { j with status := .Processing }
  else j

/-- Modelled from the spec: one scheduling tick (one simulation frame) —
work items are pulled up to the two independent caps
`MaxDivisionsPerFrame` and `MaxOpsPerFrame`.  Returns the updated queue
together with the number of objects voxelized and the number of
classification operations run this tick. -/
def schedulerTick (s : Settings) (queue : List SchedJob) :
    List SchedJob × Nat × Nat :=
  let d := pullDivisions s.MaxDivisionsPerFrame queue
  let o := pullOps s.MaxOpsPerFrame d.1
  (o.1.map markJobStatus, d.2, o.2)

/-- A run of scheduler ticks, recording for every tick the pair
(objects voxelized, classification operations run). -/
def runTicks (s : Settings) (queue : List SchedJob) :
    Nat → List (Nat × Nat)
  | 0 => []
  | n + 1 =>
      let r := schedulerTick s queue
      (r.2.1, r.2.2) :: runTicks s r.1 n

theorem pullDivisions_le (b : Nat) (js : List SchedJob) :
    (pullDivisions b js).2 ≤ b := by
  induction js generalizing b with
  | nil => simp [pullDivisions]
  | cons j rest ih =>
      simp only [pullDivisions]
      have h1 : min b j.pendingObjects.length ≤ b := Nat.min_le_left _ _
      have h2 := ih (b - min b j.pendingObjects.length)
      omega

theorem pullOps_le (b : Nat) (js : List SchedJob) :
    (pullOps b js).2 ≤ b := by
  induction js generalizing b with
  | nil => simp [pullOps]
  | cons j rest ih =>
      simp only [pullOps]
      have h1 : min b j.pendingOps ≤ b := Nat.min_le_left _ _
      have h2 := ih (b - min b j.pendingOps)
      omega

/-- Claim C1: Frame-budget invariant: across any sequence of scheduler
ticks, every single tick voxelizes at most `MaxDivisionsPerFrame`
objects and runs at most `MaxOpsPerFrame` classification +
registry-insert operations, for every configuration of the two caps. -/
theorem scheduler_frame_budget_invariant (s : Settings)
    (queue : List SchedJob) (n : Nat) :
    ∀ pr ∈ runTicks s queue n,
      pr.1 ≤ s.MaxDivisionsPerFrame ∧ pr.2 ≤ s.MaxOpsPerFrame := by
  induction n generalizing queue with
  | zero => simp [runTicks]
  | succ n ih =>
      intro pr hpr
      simp only [runTicks, List.mem_cons] at hpr
      rcases hpr with rfl | hpr
      · exact ⟨pullDivisions_le _ _, pullOps_le _ _⟩
      · exact ih _ pr hpr

/-- A concrete settings configuration used by witnesses. -/
def sampleSettings : Settings :=
  { USE_CLIENT_SERVER := true
    DefaultGridSize := 2
    DefaultSmoothCleanupDelay := 10
    UseSmoothCleanup := false
    UseGreedyMeshing := true
    GMWorkerCount := 4
    GMTraversalsPerFrame := 150
    GMPartCreationsPerFrame := 50
    MaxDivisionsPerFrame := 3
    MaxOpsPerFrame := 7
    UsePriorityQueue := true
    PrioritizeRecentN := 5
    PuppetMaxCount := 5
    PuppetReplicationFrequency := 20
    PuppetSleepVelocity := 1
    PuppetAnchorTimeout := 3
    ClientTweenPuppets := true
    ClientTweenDistanceLimit := 500
    NonDivisibleInteraction := .NONE
    SkipInstanceCheck := fun _ => false }

/-- A concrete queued job used by witnesses. -/
def sampleJob : SchedJob :=
  { id := "job1"
    status := .Queued
    gridSize := 2
    pendingObjects := []
    pendingOps := 9 }

/-- Witness for **C1**: one concrete tick trace obeys both caps. -/
theorem scheduler_frame_budget_invariant_witness :
    ((0, 7) ∈ runTicks sampleSettings [sampleJob] 1) ∧
    (0 ≤ sampleSettings.MaxDivisionsPerFrame ∧
      7 ≤ sampleSettings.MaxOpsPerFrame) :=
  ⟨by simp [runTicks, schedulerTick, pullDivisions, pullOps, sampleJob,
      sampleSettings],
    scheduler_frame_budget_invariant sampleSettings [sampleJob] 1 (0, 7)
      (by simp [runTicks, schedulerTick, pullDivisions, pullOps, sampleJob,
        sampleSettings])⟩

/-- A free-falling debris object under active replication (`Puppet`):
transform, linear/angular velocity, last-broadcast timestamp, sleep
state and accumulated sleep time. -/
structure Puppet where
  id : String
  cf : Transform
  velocity : Vec3
  angularVelocity : Vec3
  lastBroadcast : ℚ
  sleeping : Bool
  sleepTime : ℚ
deriving DecidableEq, Repr

/-- The whole-system state touched by `Reset` and `ClearQueue`: the
registry (scene + dirty groups), the job queue, the active puppets, the
smooth-cleanup timers, the greedy-meshing workers, and the replication
ownership assignments (group id → owner). -/
structure SystemState where
  registry : Registry
  queue : List SchedJob
  puppets : List Puppet
  cleanupTimers : List (String × ℚ)
  gmWorkers : Nat
  ownership : List (String × Nat)
deriving Repr

/-- A Queued or Processing job is moved to Cancelled; finished jobs are
left as they are. -/
def cancelJob (j : SchedJob) : SchedJob :=
  if j.status = .Queued ∨ j.status = .Processing then
    { j with status := .Cancelled }
  else j

/-- Modelled from the spec: `ClearQueue()` — every Queued/Processing job
transitions to Cancelled; already-applied voxel state (registry, scene,
puppets) is untouched. -/
def ClearQueue (st : SystemState) : SystemState :=
  { st with queue := st.queue.map cancelJob }

/-- Modelled from the spec: `Reset(doNotRevertOwnership)` — cancels all
queued operations (the queue is emptied), terminates the greedy-meshing
workers, clears the smooth-cleanup timers, removes all puppets, restores
every DirtyGroup to its original object and clears all groups;
ownership assignments are kept when `doNotRevertOwnership` is true. -/
def Reset (doNotRevertOwnership : Bool) (st : SystemState) : SystemState :=
  { registry :=
      { scene := st.registry.scene ++ st.registry.groups.map (·.2.original)
        groups := [] }
    queue := []
    puppets := []
    cleanupTimers := []
    gmWorkers := 0
    ownership := if doNotRevertOwnership then st.ownership else [] }

/-- Claim C7: Reset idempotence: from every system state (in particular
every reachable one), calling `Reset` twice in a row produces exactly
the same final state — restored originals, cleared DirtyGroups, empty
queue — as calling it once. -/
theorem reset_idempotent (doNotRevertOwnership : Bool) (st : SystemState) :
    Reset doNotRevertOwnership (Reset doNotRevertOwnership st) =
      Reset doNotRevertOwnership st := by
  cases doNotRevertOwnership <;> simp [Reset]

/-- Claim C8: Forward-only cancellation: `ClearQueue` moves every job in
state Queued or Processing to Cancelled, leaves other jobs' status
unchanged, and leaves all already-applied voxel state — the registry
(scene and dirty groups) and the puppets — unchanged. -/
theorem clear_queue_forward_only (st : SystemState) :
    (ClearQueue st).queue = st.queue.map cancelJob ∧
    (∀ j ∈ st.queue,
      ((j.status = .Queued ∨ j.status = .Processing) →
        (cancelJob j).status = .Cancelled) ∧
      (¬(j.status = .Queued ∨ j.status = .Processing) →
        (cancelJob j).status = j.status) ∧
      (cancelJob j).pendingObjects = j.pendingObjects ∧
      (cancelJob j).pendingOps = j.pendingOps) ∧
    (ClearQueue st).registry = st.registry ∧
    (ClearQueue st).puppets = st.puppets := by
  refine ⟨rfl, ?_, rfl, rfl⟩
  intro j _
  refine ⟨fun h => by simp [cancelJob, h], fun h => by simp [cancelJob, h],
    ?_, ?_⟩ <;> by_cases h : j.status = .Queued ∨ j.status = .Processing <;>
    simp [cancelJob, h]

/-- A concrete queued system state for the **C8** witness. -/
def sampleState : SystemState :=
  { registry := emptyRegistry
    queue := [sampleJob]
    puppets := []
    cleanupTimers := []
    gmWorkers := 0
    ownership := [] }

/-- Witness for **C8** at a concrete one-job state. -/
theorem clear_queue_forward_only_witness :
    sampleJob ∈ sampleState.queue ∧
    (sampleJob.status = .Queued ∨ sampleJob.status = .Processing) ∧
    (cancelJob sampleJob).status = .Cancelled ∧
    (ClearQueue sampleState).registry = sampleState.registry :=
  ⟨by simp [sampleState],
    Or.inl (by simp [sampleJob]),
    ((clear_queue_forward_only sampleState).2.1 sampleJob
      (by simp [sampleState])).1 (Or.inl (by simp [sampleJob])),
    (clear_queue_forward_only sampleState).2.2.1⟩

/-- Modelled from the spec: enforce the bounded puppet set — while the
active set exceeds `PuppetMaxCount`, the oldest puppet (front of the
list) is evicted/anchored. -/
def enforcePuppetCap (maxCount : Nat) (ps : List Puppet) : List Puppet :=
  ps.drop (ps.length - maxCount)

/-- Modelled from the spec: `Puppeteer(voxel)` — appends a new active
puppet (newest at the back) and enforces the cap. -/
def Puppeteer (maxCount : Nat) (ps : List Puppet) (p : Puppet) :
    List Puppet :=
  enforcePuppetCap maxCount (ps ++ [p])

/-- The operations of the Replication Compressor on the active puppet
set. -/
inductive PuppetOp where
  | create (p : Puppet)
  | anchorSleeping (timeout : ℚ)
  | clear

/-- Modelled from the spec: one compressor operation — puppet creation
(cap enforced), anchoring of puppets sleeping past the timeout (removed
from the active set), or clearing. -/
def applyPuppetOp (maxCount : Nat) (ps : List Puppet) :
    PuppetOp → List Puppet
  | .create p => Puppeteer maxCount ps p
  | .anchorSleeping t =>
      ps.filter fun q => !(q.sleeping && decide (t ≤ q.sleepTime))
  | .clear => []

theorem enforcePuppetCap_length (maxCount : Nat) (ps : List Puppet) :
    (enforcePuppetCap maxCount ps).length ≤ maxCount := by
  simp only [enforcePuppetCap, List.length_drop]
  omega

/-- Claim C9: Puppet cap invariant: the active puppet set never exceeds
`PuppetMaxCount` after any compressor operation; and with
`PuppetMaxCount = 5`, creating a 6th puppet evicts exactly one — the
oldest — leaving exactly the 5 most recent active. -/
theorem puppet_cap_invariant :
    (∀ (maxCount : Nat) (ps : List Puppet) (op : PuppetOp),
      ps.length ≤ maxCount →
        (applyPuppetOp maxCount ps op).length ≤ maxCount) ∧
    (∀ p1 p2 p3 p4 p5 p6 : Puppet,
      List.foldl (fun ps p => applyPuppetOp 5 ps (.create p)) []
          [p1, p2, p3, p4, p5, p6] = [p2, p3, p4, p5, p6] ∧
      (List.foldl (fun ps p => applyPuppetOp 5 ps (.create p)) []
          [p1, p2, p3, p4, p5, p6]).length = 5) := by
  constructor
  · intro maxCount ps op hle
    cases op with
    | create p => exact enforcePuppetCap_length _ _
    | anchorSleeping t => exact le_trans (List.length_filter_le _ _) hle
    | clear => simp [applyPuppetOp]
  · intro p1 p2 p3 p4 p5 p6
    constructor <;>
      simp [applyPuppetOp, Puppeteer, enforcePuppetCap, List.foldl_cons,
        List.foldl_nil]

/-- A concrete puppet for the **C9** witness. -/
def samplePuppet : Puppet :=
  { id := "puppet1"
    cf := Transform.id
    velocity := ⟨0, -10, 0⟩
    angularVelocity := Vec3.zero
    lastBroadcast := 0
    sleeping := false
    sleepTime := 0 }

/-- Witness for **C9**: creating a puppet from the empty active set
respects the cap. -/
theorem puppet_cap_invariant_witness :
    ([] : List Puppet).length ≤ 5 ∧
    (applyPuppetOp 5 [] (.create samplePuppet)).length ≤ 5 :=
  ⟨by simp, puppet_cap_invariant.1 5 [] (.create samplePuppet) (by simp)⟩

/-- ASCII lowercasing of one character (the case-insensitivity used by
the effect registry). -/
def lowerChar (c : Char) : Char :=
  if 'A' ≤ c ∧ c ≤ 'Z' then Char.ofNat (c.toNat + 32) else c

/-- The case-insensitive key of an effect name. -/
def lowerName (s : String) : List Char := s.data.map lowerChar

/-- Modelled from the spec: `RegisterOnVoxelDestruct(name, callback)` —
the effect name is treated case-insensitively; registration under a name
whose key is already present fails the duplicate-name assertion
(`none`).  Callbacks are represented by opaque tokens. -/
def RegisterOnVoxelDestruct (name : String) (cb : Nat)
    (reg : List (String × Nat)) : Option (List (String × Nat)) :=
  if reg.any fun e => decide (lowerName e.1 = lowerName name) then none
  else some ((name, cb) :: reg)

/-- Modelled from the spec: dispatch of `OnVoxelDestruct(callbackName)`
— resolves the first registered callback whose case-insensitive key
matches. -/
def lookupEffect (name : String) (reg : List (String × Nat)) :
    Option Nat :=
  (reg.find? fun e => decide (lowerName e.1 = lowerName name)).map (·.2)

/-- Claim C10: Case-insensitive effect names: for every pair of names with
the same case-insensitive key, registering the second after a successful
registration of the first fails the duplicate-name assertion, and
dispatch by name resolves the same callback regardless of the casing
used. -/
theorem register_effect_case_insensitive (n1 n2 : String) (cb1 cb2 : Nat)
    (reg reg' : List (String × Nat)) (hcase : lowerName n1 = lowerName n2)
    (hok : RegisterOnVoxelDestruct n1 cb1 reg = some reg') :
    RegisterOnVoxelDestruct n2 cb2 reg' = none ∧
    ∀ r : List (String × Nat), lookupEffect n1 r = lookupEffect n2 r := by
  constructor
  · simp only [RegisterOnVoxelDestruct] at hok
    by_cases hdup : reg.any fun e => decide (lowerName e.1 = lowerName n1)
    · rw [if_pos hdup] at hok
      exact Option.noConfusion hok
    · rw [if_neg hdup] at hok
      have hreg' : reg' = (n1, cb1) :: reg := (Option.some.injEq _ _).mp
        hok.symm
      subst hreg'
      simp [RegisterOnVoxelDestruct, List.any_cons, hcase]
  · intro r
    simp [lookupEffect, hcase]

/-- Witness for **C10** at the names "Explosion" / "EXPLOSION". -/
theorem register_effect_case_insensitive_witness :
    (lowerName "Explosion" = lowerName "EXPLOSION" ∧
      RegisterOnVoxelDestruct "Explosion" 1 [] =
        some [("Explosion", 1)]) ∧
    (RegisterOnVoxelDestruct "EXPLOSION" 2 [("Explosion", 1)] = none ∧
      lookupEffect "Explosion" [("Explosion", 1)] =
        lookupEffect "EXPLOSION" [("Explosion", 1)]) :=
  ⟨⟨by decide, by decide⟩,
    ⟨(register_effect_case_insensitive "Explosion" "EXPLOSION" 1 2 []
        [("Explosion", 1)] (by decide) (by decide)).1,
      (register_effect_case_insensitive "Explosion" "EXPLOSION" 1 2 []
        [("Explosion", 1)] (by decide) (by decide)).2
        [("Explosion", 1)]⟩⟩

end Shatterbox
